import Mathlib

/-!
Shallow embedding of the transactron accounting core
(src/account.rs, src/transaction.rs, src/error.rs,
src/transaction_processor.rs, src/csv_utils.rs).

Modelling conventions:
* `Amount` (rust_decimal `Decimal`; the spec fixes the domain to exact
  four-decimal fixed-point values, and the code only ever adds, subtracts
  and compares amounts — all exact) is modelled as `ℤ`, counting units of
  `10 ^ (-4)`; e.g. the decimal `1.5` is the integer `15000`.  Addition,
  subtraction and comparison of decimals correspond exactly to the integer
  operations under this scaling.
* `ClientID` (u16) and `TxID` (u32) are modelled as `Nat`; the claims only
  ever compare identifiers for equality, so wrap-around never matters.
* The two `BTreeMap`s are modelled as functions `Nat → Option _`.
* `process_transaction` is modelled by `processTransaction`; a `.unwrap()`
  on a `None` amount (a Rust panic) is modelled by returning `none`.
* The processing loop `process`, which discards per-event errors and keeps
  going, is modelled by `processList`.
-/

abbrev Amount := ℤ

/-- From src/error.rs: the `AccountingError` enum. -/
inductive AccountingError where
  | Withdrawal
  | Deposit
  | Dispute
  | Deserialize (msg : String)
  | MalformedTransaction
  | TokioChannel (msg : String)
  | TransactionAlreadyExists
  | AccountLocked
  | HandleAwait (msg : String)
deriving DecidableEq, Repr

/-- From src/account.rs: the `Account` struct. -/
structure Account where
  client : Nat
  available : Amount
  held : Amount
  total : Amount
  locked : Bool
deriving DecidableEq, Repr

namespace Account

/-- `impl Default for Account` (src/account.rs lines 15-25). -/
def default : Account :=
  { client := 0, available := 0, held := 0, total := 0, locked := false }

/-- `Account::deposit` (src/account.rs lines 39-42). -/
def deposit (a : Account) (amount : Amount) : Account :=
  { a with available := a.available + amount, total := a.total + amount }

/-- `Account::withdrawal` (src/account.rs lines 44-51). -/
def withdrawal (a : Account) (amount : Amount) :
    Except AccountingError Account :=
  if a.available - amount ≥ 0 then
    Except.ok { a with available := a.available - amount,
                       total := a.total - amount }
  else
    Except.error AccountingError.Withdrawal

/-- `Account::dispute` (src/account.rs lines 54-62). -/
def dispute (a : Account) (amount : Amount) :
    Except AccountingError Account :=
  if a.available ≥ amount then
    Except.ok { a with held := a.held + amount,
                       available := a.available - amount }
  else
    Except.error AccountingError.Dispute

/-- `Account::resolve` (src/account.rs lines 64-67). -/
def resolve (a : Account) (amount : Amount) : Account :=
  { a with held := a.held - amount, available := a.available + amount }

/-- `Account::chargeback` (src/account.rs lines 69-73). -/
def chargeback (a : Account) (amount : Amount) : Account :=
  { a with held := a.held - amount, total := a.total - amount,
           locked := true }

end Account

/-- From src/transaction.rs: the `TransactionData` struct. -/
structure TransactionData where
  client_id : Nat
  tx_id : Nat
  amount : Option Amount
  under_dispute : Bool
deriving DecidableEq, Repr

/-- From src/transaction.rs: the `Transaction` enum. -/
inductive Transaction where
  | Deposit (td : TransactionData)
  | Withdrawal (td : TransactionData)
  | Resolve (td : TransactionData)
  | Dispute (td : TransactionData)
  | Chargeback (td : TransactionData)
deriving DecidableEq, Repr

/-- `impl Deref for Transaction` (src/transaction.rs lines 17-28): access to
the shared `TransactionData` payload. -/
def Transaction.data : Transaction → TransactionData
  | Transaction.Deposit td => td
  | Transaction.Withdrawal td => td
  | Transaction.Resolve td => td
  | Transaction.Dispute td => td
  | Transaction.Chargeback td => td

/-- Point update of a map, modelling insertion into a `BTreeMap`. -/
def updateMap {α : Type} (m : Nat → Option α) (k : Nat) (v : α) :
    Nat → Option α :=
  fun i => if i = k then some v else m i

/-- The mutable state of `TransactionProcessor`
(src/transaction_processor.rs lines 10-14): the `accounts` map and the
`transactions` ledger map. -/
structure PState where
  accounts : Nat → Option Account
  transactions : Nat → Option TransactionData

/-- The empty initial state (both maps default to empty). -/
def initState : PState :=
  { accounts := fun _ => none, transactions := fun _ => none }

/-- Lines 52-57 of src/transaction_processor.rs:
`accounts.entry(client_id).or_default()` followed by the client-id fix-up. -/
def getClient (accounts : Nat → Option Account) (cid : Nat) : Account :=
  let a := (accounts cid).getD Account.default
  if a.client ≠ cid then { a with client := cid } else a

/-- `TransactionProcessor::process_transaction`
(src/transaction_processor.rs lines 48-123).  Returns `none` exactly when the
Rust code would panic on `amount.unwrap()` (a Deposit/Withdrawal event whose
amount is `None`); otherwise returns the successor state and the event's
`Result`. -/
def processTransaction (s : PState) (tx : Transaction) :
    Option (PState × Except AccountingError Unit) :=
  let cid := (Transaction.data tx).client_id
  let client := getClient s.accounts cid
  let s1 : PState := { s with accounts := updateMap s.accounts cid client }
  if client.locked then
    some (s1, Except.error AccountingError.AccountLocked)
  else
    match tx with
    | Transaction.Deposit td =>
      match td.amount with
      | none => none
      | some amt =>
        let client := client.deposit amt
        let s2 : PState :=
          { s1 with accounts := updateMap s1.accounts cid client }
        match s2.transactions td.tx_id with
        | none =>
          some ({ s2 with
                  transactions := updateMap s2.transactions td.tx_id td },
                Except.ok ())
        | some _ =>
          some (s2, Except.error AccountingError.TransactionAlreadyExists)
    | Transaction.Withdrawal td =>
      match td.amount with
      | none => none
      | some amt =>
        match client.withdrawal amt with
        | Except.error e => some (s1, Except.error e)
        | Except.ok client =>
          let s2 : PState :=
            { s1 with accounts := updateMap s1.accounts cid client }
          match s2.transactions td.tx_id with
          | none =>
            some ({ s2 with
                    transactions := updateMap s2.transactions td.tx_id td },
                  Except.ok ())
          | some _ =>
            some (s2, Except.error AccountingError.TransactionAlreadyExists)
    | Transaction.Dispute td =>
      match s1.transactions td.tx_id with
      | none => some (s1, Except.ok ())
      | some t =>
        match t.amount, t.under_dispute with
        | some amt, false =>
          match client.dispute amt with
          | Except.ok client =>
            some ({ accounts := updateMap s1.accounts cid client,
                    transactions := updateMap s1.transactions td.tx_id
                      { t with under_dispute := true } },
                  Except.ok ())
          | Except.error e => some (s1, Except.error e)
        | _, _ => some (s1, Except.ok ())
    | Transaction.Resolve td =>
      match s1.transactions td.tx_id with
      | none => some (s1, Except.ok ())
      | some t =>
        match t.amount, t.under_dispute with
        | some amt, true =>
          let client := client.resolve amt
          some ({ accounts := updateMap s1.accounts cid client,
                  transactions := updateMap s1.transactions td.tx_id
                    { t with under_dispute := false } },
                Except.ok ())
        | _, _ => some (s1, Except.ok ())
    | Transaction.Chargeback td =>
      match s1.transactions td.tx_id with
      | none => some (s1, Except.ok ())
      | some t =>
        match t.amount, t.under_dispute with
        | some amt, true =>
          let client := client.chargeback amt
          let client := { client with locked := true }
          some ({ accounts := updateMap s1.accounts cid client,
                  transactions := updateMap s1.transactions td.tx_id
                    { t with under_dispute := false } },
                Except.ok ())
        | _, _ => some (s1, Except.ok ())

/-- `TransactionProcessor::process` (src/transaction_processor.rs lines
32-46): drain the stream in order, observe and discard each per-event
result, never abort.  `none` propagates a panic. -/
def processList (s : PState) : List Transaction → Option PState
  | [] => some s
  | tx :: rest =>
    match processTransaction s tx with
    | none => none
    | some (s', _) => processList s' rest

/-- Well-formedness the external CSV reader guarantees for events delivered
to the core: Deposit/Withdrawal events carry `Some` amount strictly greater
than zero (src/csv_utils.rs lines 49-79). -/
def wfTx : Transaction → Bool
  | Transaction.Deposit td =>
    match td.amount with
    | some amt => decide (0 < amt)
    | none => false
  | Transaction.Withdrawal td =>
    match td.amount with
    | some amt => decide (0 < amt)
    | none => false
  | _ => true

/-- From src/csv_utils.rs lines 126-133: the raw CSV `Record` struct. -/
structure Record where
  transaction_type : Option String
  client : Option Nat
  tx : Option Nat
  amount : Option Amount
deriving DecidableEq, Repr

/-- `TransactionReader::record_to_transaction`
(src/csv_utils.rs lines 49-115). -/
def recordToTransaction (record : Record) : Option Transaction :=
  match record.transaction_type with
  | some transaction_type =>
    match transaction_type with
    | "deposit" => do
      let amount ← record.amount
      let client ← record.client
      let tx ← record.tx
      if amount ≤ 0 then
        none
      else
        some (Transaction.Deposit
          { client_id := client, tx_id := tx,
            amount := some amount, under_dispute := false })
    | "withdrawal" => do
      let amount ← record.amount
      let client ← record.client
      let tx ← record.tx
      if amount ≤ 0 then
        none
      else
        some (Transaction.Withdrawal
          { client_id := client, tx_id := tx,
            amount := some amount, under_dispute := false })
    | "dispute" => do
      let client ← record.client
      let tx ← record.tx
      some (Transaction.Dispute
        { client_id := client, tx_id := tx,
          amount := none, under_dispute := false })
    | "resolve" => do
      let client ← record.client
      let tx ← record.tx
      some (Transaction.Resolve
        { client_id := client, tx_id := tx,
          amount := none, under_dispute := false })
    | "chargeback" => do
      let client ← record.client
      let tx ← record.tx
      some (Transaction.Chargeback
        { client_id := client, tx_id := tx,
          amount := none, under_dispute := false })
    | _ => none
  | none => none

/-- The per-account part of the spec invariant that holds on the code:
`available ≥ 0` and `total = available + held`. -/
def AccInv (a : Account) : Prop :=
  0 ≤ a.available ∧ a.total = a.available + a.held

/-- All accounts in a map satisfy `AccInv`. -/
def AccountsInv (m : Nat → Option Account) : Prop :=
  ∀ c a, m c = some a → AccInv a

/-- Every amount stored in the ledger is strictly positive (entries are only
created by well-formed Deposit/Withdrawal events). -/
def LedgerInv (l : Nat → Option TransactionData) : Prop :=
  ∀ i t, l i = some t → ∀ amt, t.amount = some amt → 0 < amt

/-- The inductive state invariant. -/
def StateInv (s : PState) : Prop :=
  AccountsInv s.accounts ∧ LedgerInv s.transactions

/-! ### Basic lemmas about the map model and `getClient` -/

theorem updateMap_apply_same {α : Type} (m : Nat → Option α) (k : Nat)
    (v : α) : updateMap m k v k = some v := by
  simp [updateMap]

theorem updateMap_apply_other {α : Type} (m : Nat → Option α) (k : Nat)
    (v : α) (i : Nat) (h : i ≠ k) : updateMap m k v i = m i := by
  simp [updateMap, h]

theorem updateMap_self {α : Type} (m : Nat → Option α) (k : Nat) (v : α)
    (h : m k = some v) : updateMap m k v = m := by
  funext i
  by_cases hi : i = k <;> simp [updateMap, hi, h]

theorem getClient_mem (m : Nat → Option Account) (cid : Nat) (a : Account)
    (hm : m cid = some a) : getClient m cid = { a with client := cid } := by
  unfold getClient
  simp only [hm, Option.getD_some]
  split
  · rfl
  · rename_i h
    have hc : a.client = cid := not_not.mp h
    cases a
    simp_all

theorem getClient_of_mem (m : Nat → Option Account) (cid : Nat)
    (a : Account) (hm : m cid = some a) (hc : a.client = cid) :
    getClient m cid = a := by
  rw [getClient_mem m cid a hm]
  cases a
  simp_all

theorem getClient_none (m : Nat → Option Account) (cid : Nat)
    (hm : m cid = none) :
    getClient m cid = { Account.default with client := cid } := by
  unfold getClient
  simp only [hm, Option.getD_none]
  by_cases h0 : cid = 0 <;> simp [Account.default, h0]

theorem getClient_client (m : Nat → Option Account) (cid : Nat) :
    (getClient m cid).client = cid := by
  cases hm : m cid with
  | none => rw [getClient_none m cid hm]
  | some a => rw [getClient_mem m cid a hm]

/-! ### The account operations preserve `AccInv` -/

theorem accInv_default : AccInv Account.default := by
  simp [AccInv, Account.default]

theorem accInv_client (a : Account) (cid : Nat) :
    AccInv a → AccInv { a with client := cid } := by
  simp [AccInv]

theorem accInv_getClient (m : Nat → Option Account) (cid : Nat)
    (h : AccountsInv m) : AccInv (getClient m cid) := by
  cases hm : m cid with
  | none =>
    rw [getClient_none m cid hm]
    exact accInv_client _ _ accInv_default
  | some a =>
    rw [getClient_mem m cid a hm]
    exact accInv_client _ _ (h cid a hm)

theorem accInv_deposit (a : Account) (amt : Amount) (h : AccInv a)
    (hamt : 0 < amt) : AccInv (a.deposit amt) := by
  obtain ⟨h1, h2⟩ := h
  constructor
  · simp only [Account.deposit]
    linarith
  · simp only [Account.deposit]
    linarith

theorem accInv_withdrawal (a a' : Account) (amt : Amount) (h : AccInv a)
    (hw : a.withdrawal amt = Except.ok a') : AccInv a' := by
  obtain ⟨h1, h2⟩ := h
  unfold Account.withdrawal at hw
  split at hw
  · rename_i hge
    rw [Except.ok.injEq] at hw
    subst hw
    constructor
    · simpa using hge
    · simp only
      linarith
  · exact absurd hw (by simp)

theorem accInv_dispute (a a' : Account) (amt : Amount) (h : AccInv a)
    (hd : a.dispute amt = Except.ok a') : AccInv a' := by
  obtain ⟨h1, h2⟩ := h
  unfold Account.dispute at hd
  split at hd
  · rename_i hge
    rw [Except.ok.injEq] at hd
    subst hd
    constructor
    · simp only
      linarith
    · simp only
      linarith
  · exact absurd hd (by simp)

theorem accInv_resolve (a : Account) (amt : Amount) (h : AccInv a)
    (hamt : 0 ≤ amt) : AccInv (a.resolve amt) := by
  obtain ⟨h1, h2⟩ := h
  constructor
  · simp only [Account.resolve]
    linarith
  · simp only [Account.resolve]
    linarith

theorem accInv_chargeback (a : Account) (amt : Amount) (h : AccInv a) :
    AccInv (a.chargeback amt) := by
  obtain ⟨h1, h2⟩ := h
  constructor
  · simpa [Account.chargeback] using h1
  · simp only [Account.chargeback]
    linarith

theorem accInv_locked (a : Account) (h : AccInv a) :
    AccInv { a with locked := true } := by
  simpa [AccInv] using h

theorem accountsInv_update (m : Nat → Option Account) (k : Nat)
    (a : Account) (h : AccountsInv m) (ha : AccInv a) :
    AccountsInv (updateMap m k a) := by
  intro c b hcb
  unfold updateMap at hcb
  split at hcb
  · rw [Option.some.injEq] at hcb
    subst hcb
    exact ha
  · exact h c b hcb

theorem ledgerInv_update (l : Nat → Option TransactionData) (k : Nat)
    (t : TransactionData) (h : LedgerInv l)
    (ht : ∀ amt, t.amount = some amt → 0 < amt) :
    LedgerInv (updateMap l k t) := by
  intro i u hiu
  unfold updateMap at hiu
  split at hiu
  · rw [Option.some.injEq] at hiu
    subst hiu
    exact ht
  · exact h i u hiu

/-! ### Branch equations for `processTransaction` -/

/-- The net effect of src/transaction_processor.rs lines 51-57 on the state:
the fetched-or-created account, with its client id fixed up, is stored back
into the map.  This is the only state change an event can make besides the
mutations of its own dispatch branch. -/
def touch (s : PState) (cid : Nat) : PState :=
  { s with accounts := updateMap s.accounts cid (getClient s.accounts cid) }

theorem processTransaction_locked (s : PState) (tx : Transaction)
    (h : (getClient s.accounts (Transaction.data tx).client_id).locked =
      true) :
    processTransaction s tx =
      some (touch s (Transaction.data tx).client_id,
            Except.error AccountingError.AccountLocked) := by
  unfold processTransaction touch
  simp [h]

theorem processTransaction_deposit_fresh (s : PState)
    (td : TransactionData) (amt : Amount)
    (hlock : (getClient s.accounts td.client_id).locked = false)
    (hamt : td.amount = some amt)
    (hvac : s.transactions td.tx_id = none) :
    processTransaction s (Transaction.Deposit td) =
      some ({ accounts := updateMap
                (updateMap s.accounts td.client_id
                  (getClient s.accounts td.client_id)) td.client_id
                ((getClient s.accounts td.client_id).deposit amt),
              transactions := updateMap s.transactions td.tx_id td },
            Except.ok ()) := by
  unfold processTransaction
  simp [Transaction.data, hlock, hamt, hvac]

theorem processTransaction_deposit_dup (s : PState)
    (td : TransactionData) (amt : Amount) (t : TransactionData)
    (hlock : (getClient s.accounts td.client_id).locked = false)
    (hamt : td.amount = some amt)
    (hocc : s.transactions td.tx_id = some t) :
    processTransaction s (Transaction.Deposit td) =
      some ({ accounts := updateMap
                (updateMap s.accounts td.client_id
                  (getClient s.accounts td.client_id)) td.client_id
                ((getClient s.accounts td.client_id).deposit amt),
              transactions := s.transactions },
            Except.error AccountingError.TransactionAlreadyExists) := by
  unfold processTransaction
  simp [Transaction.data, hlock, hamt, hocc]

theorem processTransaction_withdrawal_ok_fresh (s : PState)
    (td : TransactionData) (amt : Amount) (a' : Account)
    (hlock : (getClient s.accounts td.client_id).locked = false)
    (hamt : td.amount = some amt)
    (hw : (getClient s.accounts td.client_id).withdrawal amt =
      Except.ok a')
    (hvac : s.transactions td.tx_id = none) :
    processTransaction s (Transaction.Withdrawal td) =
      some ({ accounts := updateMap
                (updateMap s.accounts td.client_id
                  (getClient s.accounts td.client_id)) td.client_id a',
              transactions := updateMap s.transactions td.tx_id td },
            Except.ok ()) := by
  unfold processTransaction
  simp [Transaction.data, hlock, hamt, hw, hvac]

theorem processTransaction_withdrawal_ok_dup (s : PState)
    (td : TransactionData) (amt : Amount) (a' : Account)
    (t : TransactionData)
    (hlock : (getClient s.accounts td.client_id).locked = false)
    (hamt : td.amount = some amt)
    (hw : (getClient s.accounts td.client_id).withdrawal amt =
      Except.ok a')
    (hocc : s.transactions td.tx_id = some t) :
    processTransaction s (Transaction.Withdrawal td) =
      some ({ accounts := updateMap
                (updateMap s.accounts td.client_id
                  (getClient s.accounts td.client_id)) td.client_id a',
              transactions := s.transactions },
            Except.error AccountingError.TransactionAlreadyExists) := by
  unfold processTransaction
  simp [Transaction.data, hlock, hamt, hw, hocc]

theorem processTransaction_withdrawal_err (s : PState)
    (td : TransactionData) (amt : Amount) (e : AccountingError)
    (hlock : (getClient s.accounts td.client_id).locked = false)
    (hamt : td.amount = some amt)
    (hw : (getClient s.accounts td.client_id).withdrawal amt =
      Except.error e) :
    processTransaction s (Transaction.Withdrawal td) =
      some (touch s td.client_id, Except.error e) := by
  unfold processTransaction touch
  simp [Transaction.data, hlock, hamt, hw]

theorem processTransaction_dispute_none (s : PState)
    (td : TransactionData)
    (hlock : (getClient s.accounts td.client_id).locked = false)
    (hvac : s.transactions td.tx_id = none) :
    processTransaction s (Transaction.Dispute td) =
      some (touch s td.client_id, Except.ok ()) := by
  unfold processTransaction touch
  simp [Transaction.data, hlock, hvac]

theorem processTransaction_dispute_ok (s : PState) (td : TransactionData)
    (t : TransactionData) (amt : Amount) (a' : Account)
    (hlock : (getClient s.accounts td.client_id).locked = false)
    (ht : s.transactions td.tx_id = some t)
    (hta : t.amount = some amt)
    (hud : t.under_dispute = false)
    (hd : (getClient s.accounts td.client_id).dispute amt =
      Except.ok a') :
    processTransaction s (Transaction.Dispute td) =
      some ({ accounts := updateMap
                (updateMap s.accounts td.client_id
                  (getClient s.accounts td.client_id)) td.client_id a',
              transactions := updateMap s.transactions td.tx_id
                { t with under_dispute := true } },
            Except.ok ()) := by
  unfold processTransaction
  simp [Transaction.data, hlock, ht, hta, hud, hd]

theorem processTransaction_dispute_err (s : PState) (td : TransactionData)
    (t : TransactionData) (amt : Amount) (e : AccountingError)
    (hlock : (getClient s.accounts td.client_id).locked = false)
    (ht : s.transactions td.tx_id = some t)
    (hta : t.amount = some amt)
    (hud : t.under_dispute = false)
    (hd : (getClient s.accounts td.client_id).dispute amt =
      Except.error e) :
    processTransaction s (Transaction.Dispute td) =
      some (touch s td.client_id, Except.error e) := by
  unfold processTransaction touch
  simp [Transaction.data, hlock, ht, hta, hud, hd]

theorem processTransaction_dispute_skip (s : PState) (td : TransactionData)
    (t : TransactionData)
    (hlock : (getClient s.accounts td.client_id).locked = false)
    (ht : s.transactions td.tx_id = some t)
    (hud : t.under_dispute = true) :
    processTransaction s (Transaction.Dispute td) =
      some (touch s td.client_id, Except.ok ()) := by
  unfold processTransaction touch
  cases hta : t.amount <;> simp [Transaction.data, hlock, ht, hud, hta]

theorem processTransaction_resolve_none (s : PState)
    (td : TransactionData)
    (hlock : (getClient s.accounts td.client_id).locked = false)
    (hvac : s.transactions td.tx_id = none) :
    processTransaction s (Transaction.Resolve td) =
      some (touch s td.client_id, Except.ok ()) := by
  unfold processTransaction touch
  simp [Transaction.data, hlock, hvac]

theorem processTransaction_resolve_ok (s : PState) (td : TransactionData)
    (t : TransactionData) (amt : Amount)
    (hlock : (getClient s.accounts td.client_id).locked = false)
    (ht : s.transactions td.tx_id = some t)
    (hta : t.amount = some amt)
    (hud : t.under_dispute = true) :
    processTransaction s (Transaction.Resolve td) =
      some ({ accounts := updateMap
                (updateMap s.accounts td.client_id
                  (getClient s.accounts td.client_id)) td.client_id
                ((getClient s.accounts td.client_id).resolve amt),
              transactions := updateMap s.transactions td.tx_id
                { t with under_dispute := false } },
            Except.ok ()) := by
  unfold processTransaction
  simp [Transaction.data, hlock, ht, hta, hud]

theorem processTransaction_resolve_skip (s : PState) (td : TransactionData)
    (t : TransactionData)
    (hlock : (getClient s.accounts td.client_id).locked = false)
    (ht : s.transactions td.tx_id = some t)
    (hud : t.under_dispute = false) :
    processTransaction s (Transaction.Resolve td) =
      some (touch s td.client_id, Except.ok ()) := by
  unfold processTransaction touch
  cases hta : t.amount <;> simp [Transaction.data, hlock, ht, hud, hta]

theorem processTransaction_chargeback_none (s : PState)
    (td : TransactionData)
    (hlock : (getClient s.accounts td.client_id).locked = false)
    (hvac : s.transactions td.tx_id = none) :
    processTransaction s (Transaction.Chargeback td) =
      some (touch s td.client_id, Except.ok ()) := by
  unfold processTransaction touch
  simp [Transaction.data, hlock, hvac]

theorem processTransaction_chargeback_ok (s : PState)
    (td : TransactionData) (t : TransactionData) (amt : Amount)
    (hlock : (getClient s.accounts td.client_id).locked = false)
    (ht : s.transactions td.tx_id = some t)
    (hta : t.amount = some amt)
    (hud : t.under_dispute = true) :
    processTransaction s (Transaction.Chargeback td) =
      some ({ accounts := updateMap
                (updateMap s.accounts td.client_id
                  (getClient s.accounts td.client_id)) td.client_id
                { (getClient s.accounts td.client_id).chargeback amt with
                    locked := true },
              transactions := updateMap s.transactions td.tx_id
                { t with under_dispute := false } },
            Except.ok ()) := by
  unfold processTransaction
  simp [Transaction.data, hlock, ht, hta, hud]

theorem processTransaction_chargeback_skip (s : PState)
    (td : TransactionData) (t : TransactionData)
    (hlock : (getClient s.accounts td.client_id).locked = false)
    (ht : s.transactions td.tx_id = some t)
    (hud : t.under_dispute = false) :
    processTransaction s (Transaction.Chargeback td) =
      some (touch s td.client_id, Except.ok ()) := by
  unfold processTransaction touch
  cases hta : t.amount <;> simp [Transaction.data, hlock, ht, hud, hta]

theorem processTransaction_deposit_panic (s : PState)
    (td : TransactionData)
    (hlock : (getClient s.accounts td.client_id).locked = false)
    (hamt : td.amount = none) :
    processTransaction s (Transaction.Deposit td) = none := by
  unfold processTransaction
  simp [Transaction.data, hlock, hamt]

theorem processTransaction_withdrawal_panic (s : PState)
    (td : TransactionData)
    (hlock : (getClient s.accounts td.client_id).locked = false)
    (hamt : td.amount = none) :
    processTransaction s (Transaction.Withdrawal td) = none := by
  unfold processTransaction
  simp [Transaction.data, hlock, hamt]

theorem processTransaction_dispute_noamt (s : PState)
    (td : TransactionData) (t : TransactionData)
    (hlock : (getClient s.accounts td.client_id).locked = false)
    (ht : s.transactions td.tx_id = some t)
    (hta : t.amount = none) :
    processTransaction s (Transaction.Dispute td) =
      some (touch s td.client_id, Except.ok ()) := by
  unfold processTransaction touch
  cases hud : t.under_dispute <;>
    simp [Transaction.data, hlock, ht, hta, hud]

theorem processTransaction_resolve_noamt (s : PState)
    (td : TransactionData) (t : TransactionData)
    (hlock : (getClient s.accounts td.client_id).locked = false)
    (ht : s.transactions td.tx_id = some t)
    (hta : t.amount = none) :
    processTransaction s (Transaction.Resolve td) =
      some (touch s td.client_id, Except.ok ()) := by
  unfold processTransaction touch
  cases hud : t.under_dispute <;>
    simp [Transaction.data, hlock, ht, hta, hud]

theorem processTransaction_chargeback_noamt (s : PState)
    (td : TransactionData) (t : TransactionData)
    (hlock : (getClient s.accounts td.client_id).locked = false)
    (ht : s.transactions td.tx_id = some t)
    (hta : t.amount = none) :
    processTransaction s (Transaction.Chargeback td) =
      some (touch s td.client_id, Except.ok ()) := by
  unfold processTransaction touch
  cases hud : t.under_dispute <;>
    simp [Transaction.data, hlock, ht, hta, hud]

theorem updateMap_updateMap {α : Type} (m : Nat → Option α) (k : Nat)
    (a b : α) : updateMap (updateMap m k a) k b = updateMap m k b := by
  funext i
  by_cases hi : i = k <;> simp [updateMap, hi]

theorem stateInv_touch (s : PState) (cid : Nat) (hs : StateInv s) :
    StateInv (touch s cid) :=
  ⟨accountsInv_update _ _ _ hs.1 (accInv_getClient _ _ hs.1), hs.2⟩

/-- One processed event preserves the state invariant, for every
well-formed event. -/
theorem stateInv_step (s : PState) (tx : Transaction)
    (p : PState × Except AccountingError Unit)
    (hs : StateInv s) (hwf : wfTx tx = true)
    (h : processTransaction s tx = some p) : StateInv p.1 := by
  obtain ⟨hacc, hled⟩ := hs
  cases tx with
  | Deposit td =>
    have hg : AccInv (getClient s.accounts td.client_id) :=
      accInv_getClient _ _ hacc
    cases hlock : (getClient s.accounts td.client_id).locked with
    | true =>
      rw [processTransaction_locked s (Transaction.Deposit td) hlock] at h
      rw [Option.some_inj] at h
      subst h
      exact stateInv_touch s _ ⟨hacc, hled⟩
    | false =>
      cases hamt : td.amount with
      | none => simp [wfTx, hamt] at hwf
      | some amt =>
        have hpos : 0 < amt := by simpa [wfTx, hamt] using hwf
        cases hvac : s.transactions td.tx_id with
        | none =>
          rw [processTransaction_deposit_fresh s td amt hlock hamt hvac]
            at h
          rw [Option.some_inj] at h
          subst h
          refine ⟨accountsInv_update _ _ _
            (accountsInv_update _ _ _ hacc hg)
            (accInv_deposit _ _ hg hpos), ?_⟩
          refine ledgerInv_update _ _ _ hled ?_
          intro amt' h'
          rw [hamt, Option.some_inj] at h'
          subst h'
          exact hpos
        | some t =>
          rw [processTransaction_deposit_dup s td amt t hlock hamt hvac]
            at h
          rw [Option.some_inj] at h
          subst h
          exact ⟨accountsInv_update _ _ _
            (accountsInv_update _ _ _ hacc hg)
            (accInv_deposit _ _ hg hpos), hled⟩
  | Withdrawal td =>
    have hg : AccInv (getClient s.accounts td.client_id) :=
      accInv_getClient _ _ hacc
    cases hlock : (getClient s.accounts td.client_id).locked with
    | true =>
      rw [processTransaction_locked s (Transaction.Withdrawal td) hlock]
        at h
      rw [Option.some_inj] at h
      subst h
      exact stateInv_touch s _ ⟨hacc, hled⟩
    | false =>
      cases hamt : td.amount with
      | none => simp [wfTx, hamt] at hwf
      | some amt =>
        have hpos : 0 < amt := by simpa [wfTx, hamt] using hwf
        cases hw : (getClient s.accounts td.client_id).withdrawal amt with
        | error e =>
          rw [processTransaction_withdrawal_err s td amt e hlock hamt hw]
            at h
          rw [Option.some_inj] at h
          subst h
          exact stateInv_touch s _ ⟨hacc, hled⟩
        | ok a' =>
          have ha' : AccInv a' := accInv_withdrawal _ _ _ hg hw
          cases hvac : s.transactions td.tx_id with
          | none =>
            rw [processTransaction_withdrawal_ok_fresh s td amt a' hlock
              hamt hw hvac] at h
            rw [Option.some_inj] at h
            subst h
            refine ⟨accountsInv_update _ _ _
              (accountsInv_update _ _ _ hacc hg) ha', ?_⟩
            refine ledgerInv_update _ _ _ hled ?_
            intro amt' h'
            rw [hamt, Option.some_inj] at h'
            subst h'
            exact hpos
          | some t =>
            rw [processTransaction_withdrawal_ok_dup s td amt a' t hlock
              hamt hw hvac] at h
            rw [Option.some_inj] at h
            subst h
            exact ⟨accountsInv_update _ _ _
              (accountsInv_update _ _ _ hacc hg) ha', hled⟩
  | Dispute td =>
    have hg : AccInv (getClient s.accounts td.client_id) :=
      accInv_getClient _ _ hacc
    cases hlock : (getClient s.accounts td.client_id).locked with
    | true =>
      rw [processTransaction_locked s (Transaction.Dispute td) hlock] at h
      rw [Option.some_inj] at h
      subst h
      exact stateInv_touch s _ ⟨hacc, hled⟩
    | false =>
      cases hov : s.transactions td.tx_id with
      | none =>
        rw [processTransaction_dispute_none s td hlock hov] at h
        rw [Option.some_inj] at h
        subst h
        exact stateInv_touch s _ ⟨hacc, hled⟩
      | some t =>
        cases hta : t.amount with
        | none =>
          rw [processTransaction_dispute_noamt s td t hlock hov hta] at h
          rw [Option.some_inj] at h
          subst h
          exact stateInv_touch s _ ⟨hacc, hled⟩
        | some amt =>
          cases hud : t.under_dispute with
          | true =>
            rw [processTransaction_dispute_skip s td t hlock hov hud] at h
            rw [Option.some_inj] at h
            subst h
            exact stateInv_touch s _ ⟨hacc, hled⟩
          | false =>
            cases hd : (getClient s.accounts td.client_id).dispute amt with
            | error e =>
              rw [processTransaction_dispute_err s td t amt e hlock hov
                hta hud hd] at h
              rw [Option.some_inj] at h
              subst h
              exact stateInv_touch s _ ⟨hacc, hled⟩
            | ok a' =>
              rw [processTransaction_dispute_ok s td t amt a' hlock hov
                hta hud hd] at h
              rw [Option.some_inj] at h
              subst h
              refine ⟨accountsInv_update _ _ _
                (accountsInv_update _ _ _ hacc hg)
                (accInv_dispute _ _ _ hg hd), ?_⟩
              refine ledgerInv_update _ _ _ hled ?_
              intro amt' h'
              exact hled _ _ hov amt' h'
  | Resolve td =>
    have hg : AccInv (getClient s.accounts td.client_id) :=
      accInv_getClient _ _ hacc
    cases hlock : (getClient s.accounts td.client_id).locked with
    | true =>
      rw [processTransaction_locked s (Transaction.Resolve td) hlock] at h
      rw [Option.some_inj] at h
      subst h
      exact stateInv_touch s _ ⟨hacc, hled⟩
    | false =>
      cases hov : s.transactions td.tx_id with
      | none =>
        rw [processTransaction_resolve_none s td hlock hov] at h
        rw [Option.some_inj] at h
        subst h
        exact stateInv_touch s _ ⟨hacc, hled⟩
      | some t =>
        cases hta : t.amount with
        | none =>
          rw [processTransaction_resolve_noamt s td t hlock hov hta] at h
          rw [Option.some_inj] at h
          subst h
          exact stateInv_touch s _ ⟨hacc, hled⟩
        | some amt =>
          cases hud : t.under_dispute with
          | false =>
            rw [processTransaction_resolve_skip s td t hlock hov hud] at h
            rw [Option.some_inj] at h
            subst h
            exact stateInv_touch s _ ⟨hacc, hled⟩
          | true =>
            rw [processTransaction_resolve_ok s td t amt hlock hov hta
              hud] at h
            rw [Option.some_inj] at h
            subst h
            have hpos : 0 < amt := hled _ _ hov amt hta
            refine ⟨accountsInv_update _ _ _
              (accountsInv_update _ _ _ hacc hg)
              (accInv_resolve _ _ hg (le_of_lt hpos)), ?_⟩
            refine ledgerInv_update _ _ _ hled ?_
            intro amt' h'
            exact hled _ _ hov amt' h'
  | Chargeback td =>
    have hg : AccInv (getClient s.accounts td.client_id) :=
      accInv_getClient _ _ hacc
    cases hlock : (getClient s.accounts td.client_id).locked with
    | true =>
      rw [processTransaction_locked s (Transaction.Chargeback td) hlock]
        at h
      rw [Option.some_inj] at h
      subst h
      exact stateInv_touch s _ ⟨hacc, hled⟩
    | false =>
      cases hov : s.transactions td.tx_id with
      | none =>
        rw [processTransaction_chargeback_none s td hlock hov] at h
        rw [Option.some_inj] at h
        subst h
        exact stateInv_touch s _ ⟨hacc, hled⟩
      | some t =>
        cases hta : t.amount with
        | none =>
          rw [processTransaction_chargeback_noamt s td t hlock hov hta]
            at h
          rw [Option.some_inj] at h
          subst h
          exact stateInv_touch s _ ⟨hacc, hled⟩
        | some amt =>
          cases hud : t.under_dispute with
          | false =>
            rw [processTransaction_chargeback_skip s td t hlock hov hud]
              at h
            rw [Option.some_inj] at h
            subst h
            exact stateInv_touch s _ ⟨hacc, hled⟩
          | true =>
            rw [processTransaction_chargeback_ok s td t amt hlock hov hta
              hud] at h
            rw [Option.some_inj] at h
            subst h
            refine ⟨accountsInv_update _ _ _
              (accountsInv_update _ _ _ hacc hg)
              (accInv_locked _ (accInv_chargeback _ _ hg)), ?_⟩
            refine ledgerInv_update _ _ _ hled ?_
            intro amt' h'
            exact hled _ _ hov amt' h'

/-- The state invariant is preserved across a whole stream of well-formed
events. -/
theorem stateInv_processList (txs : List Transaction) :
    ∀ (s s' : PState), StateInv s → (∀ tx ∈ txs, wfTx tx = true) →
      processList s txs = some s' → StateInv s' := by
  induction txs with
  | nil =>
    intro s s' hs _ h
    rw [processList, Option.some_inj] at h
    subst h
    exact hs
  | cons tx rest ih =>
    intro s s' hs hwf h
    rw [processList] at h
    cases hpt : processTransaction s tx with
    | none => rw [hpt] at h; exact absurd h (by simp)
    | some p =>
      rw [hpt] at h
      exact ih p.1 s'
        (stateInv_step s tx p hs (hwf tx (by simp)) hpt)
        (fun u hu => hwf u (by simp [hu])) h

theorem stateInv_initState : StateInv initState := by
  constructor
  · intro c a h
    simp [initState] at h
  · intro i t h
    simp [initState] at h

/-- Every event changes the account map at most at its own client id: the
resulting account map is a point update of the original at
`client_id`. -/
theorem processTransaction_accounts_eq (s : PState) (tx : Transaction)
    (p : PState × Except AccountingError Unit)
    (h : processTransaction s tx = some p) :
    ∃ v, p.1.accounts =
      updateMap s.accounts (Transaction.data tx).client_id v := by
  cases tx with
  | Deposit td =>
    simp only [processTransaction, Transaction.data] at h
    repeat' split at h
    all_goals
      first
        | (rw [Option.some_inj] at h
           subst h
           first
             | exact ⟨_, rfl⟩
             | exact ⟨_, updateMap_updateMap _ _ _ _⟩)
        | exact Option.noConfusion h
  | Withdrawal td =>
    simp only [processTransaction, Transaction.data] at h
    repeat' split at h
    all_goals
      first
        | (rw [Option.some_inj] at h
           subst h
           first
             | exact ⟨_, rfl⟩
             | exact ⟨_, updateMap_updateMap _ _ _ _⟩)
        | exact Option.noConfusion h
  | Dispute td =>
    simp only [processTransaction, Transaction.data] at h
    repeat' split at h
    all_goals
      first
        | (rw [Option.some_inj] at h
           subst h
           first
             | exact ⟨_, rfl⟩
             | exact ⟨_, updateMap_updateMap _ _ _ _⟩)
        | exact Option.noConfusion h
  | Resolve td =>
    simp only [processTransaction, Transaction.data] at h
    repeat' split at h
    all_goals
      first
        | (rw [Option.some_inj] at h
           subst h
           first
             | exact ⟨_, rfl⟩
             | exact ⟨_, updateMap_updateMap _ _ _ _⟩)
        | exact Option.noConfusion h
  | Chargeback td =>
    simp only [processTransaction, Transaction.data] at h
    repeat' split at h
    all_goals
      first
        | (rw [Option.some_inj] at h
           subst h
           first
             | exact ⟨_, rfl⟩
             | exact ⟨_, updateMap_updateMap _ _ _ _⟩)
        | exact Option.noConfusion h

/-- A locked account (with its stored client id) is left exactly as it is
by any single processed event. -/
theorem locked_account_frozen_step (s : PState) (tx : Transaction)
    (p : PState × Except AccountingError Unit) (c : Nat) (a : Account)
    (hm : s.accounts c = some a) (hcl : a.client = c)
    (hlk : a.locked = true)
    (h : processTransaction s tx = some p) : p.1.accounts c = some a := by
  by_cases hc : c = (Transaction.data tx).client_id
  · have hget : getClient s.accounts (Transaction.data tx).client_id = a := by
      rw [← hc]
      exact getClient_of_mem _ _ _ hm hcl
    have hlock :
        (getClient s.accounts (Transaction.data tx).client_id).locked =
          true := by
      rw [hget]; exact hlk
    rw [processTransaction_locked s tx hlock] at h
    rw [Option.some_inj] at h
    subst h
    show updateMap s.accounts (Transaction.data tx).client_id
      (getClient s.accounts (Transaction.data tx).client_id) c = some a
    rw [hc, updateMap_apply_same, hget]
  · obtain ⟨v, hv⟩ := processTransaction_accounts_eq s tx p h
    rw [hv, updateMap_apply_other _ _ _ _ hc]
    exact hm

/-- A locked account is left exactly as it is by any stream of subsequent
events. -/
theorem locked_account_frozen (txs : List Transaction) :
    ∀ (s s' : PState) (c : Nat) (a : Account), s.accounts c = some a →
      a.client = c → a.locked = true → processList s txs = some s' →
      s'.accounts c = some a := by
  induction txs with
  | nil =>
    intro s s' c a hm _ _ h
    rw [processList, Option.some_inj] at h
    subst h
    exact hm
  | cons tx rest ih =>
    intro s s' c a hm hcl hlk h
    rw [processList] at h
    cases hpt : processTransaction s tx with
    | none => rw [hpt] at h; exact absurd h (by simp)
    | some p =>
      rw [hpt] at h
      exact ih p.1 s' c a
        (locked_account_frozen_step s tx p c a hm hcl hlk hpt) hcl hlk h

/-! ### Claim theorems -/

/-- Claim C10: the locked check (src/transaction_processor.rs lines 59-61)
precedes the dispatch on the event kind: every event of every kind addressed
to a locked account fails with `AccountLocked` and changes no state at all —
including Dispute/Resolve/Chargeback events referencing unknown tx ids. -/
theorem c10_locked_check_first (s : PState) (tx : Transaction) (a : Account)
    (hm : s.accounts (Transaction.data tx).client_id = some a)
    (hcl : a.client = (Transaction.data tx).client_id)
    (hlk : a.locked = true) :
    processTransaction s tx =
      some (s, Except.error AccountingError.AccountLocked) := by
  have hget : getClient s.accounts (Transaction.data tx).client_id = a :=
    getClient_of_mem _ _ _ hm hcl
  have hlock :
      (getClient s.accounts (Transaction.data tx).client_id).locked =
        true := by
    rw [hget]; exact hlk
  rw [processTransaction_locked s tx hlock]
  have htouch : touch s (Transaction.data tx).client_id = s := by
    unfold touch
    rw [hget, updateMap_self _ _ _ hm]
  rw [htouch]

theorem c10_witness :
    ((⟨fun c => if c = 1 then some ⟨1, 0, 0, 0, true⟩ else none,
        fun _ => none⟩ : PState).accounts
        (Transaction.data
          (Transaction.Dispute ⟨1, 999, none, false⟩)).client_id =
      some (⟨1, 0, 0, 0, true⟩ : Account)) ∧
    (⟨1, 0, 0, 0, true⟩ : Account).locked = true ∧
    processTransaction
        (⟨fun c => if c = 1 then some ⟨1, 0, 0, 0, true⟩ else none,
          fun _ => none⟩ : PState)
        (Transaction.Dispute ⟨1, 999, none, false⟩) =
      some ((⟨fun c => if c = 1 then some ⟨1, 0, 0, 0, true⟩ else none,
               fun _ => none⟩ : PState),
            Except.error AccountingError.AccountLocked) :=
  ⟨by decide, rfl,
    c10_locked_check_first _ _ ⟨1, 0, 0, 0, true⟩ (by decide) rfl rfl⟩

/-- Claim C5: chargeback finality.  First part: a locked account (locked can
only ever be set by `Chargeback`, src/transaction_processor.rs lines
109-120) keeps `locked = true` and none of its fields — in particular no
balance field — is changed by any subsequent stream of events.  Second part:
the chargeback transition itself subtracts the entry's amount from `held`
and from `total` of the event's account. -/
theorem c5_chargeback_finality :
    (∀ (txs : List Transaction) (s s' : PState) (c : Nat) (a : Account),
      s.accounts c = some a → a.client = c → a.locked = true →
      processList s txs = some s' →
      s'.accounts c = some a ∧ a.locked = true) ∧
    (∀ (s : PState) (td t : TransactionData) (amt : Amount),
      (getClient s.accounts td.client_id).locked = false →
      s.transactions td.tx_id = some t → t.amount = some amt →
      t.under_dispute = true →
      ∀ p, processTransaction s (Transaction.Chargeback td) = some p →
        p.1.accounts td.client_id =
          some { getClient s.accounts td.client_id with
                 held := (getClient s.accounts td.client_id).held - amt,
                 total := (getClient s.accounts td.client_id).total - amt,
                 locked := true }) := by
  constructor
  · intro txs s s' c a hm hcl hlk h
    exact ⟨locked_account_frozen txs s s' c a hm hcl hlk h, hlk⟩
  · intro s td t amt hlock ht hta hud p hp
    rw [processTransaction_chargeback_ok s td t amt hlock ht hta hud] at hp
    rw [Option.some_inj] at hp
    subst hp
    show updateMap
      (updateMap s.accounts td.client_id
        (getClient s.accounts td.client_id)) td.client_id
      { (getClient s.accounts td.client_id).chargeback amt with
          locked := true } td.client_id = _
    rw [updateMap_updateMap, updateMap_apply_same]
    rfl

theorem c5_witness :
    ((⟨fun c => if c = 1 then some ⟨1, 15000, 0, 15000, true⟩ else none,
        fun _ => none⟩ : PState).accounts 1 =
      some (⟨1, 15000, 0, 15000, true⟩ : Account)) ∧
    (⟨1, 15000, 0, 15000, true⟩ : Account).client = 1 ∧
    (⟨1, 15000, 0, 15000, true⟩ : Account).locked = true ∧
    (∀ s', processList
        (⟨fun c => if c = 1 then some ⟨1, 15000, 0, 15000, true⟩ else none,
          fun _ => none⟩ : PState)
        [Transaction.Deposit ⟨1, 5, some 10000, false⟩] = some s' →
      s'.accounts 1 = some (⟨1, 15000, 0, 15000, true⟩ : Account) ∧
      (⟨1, 15000, 0, 15000, true⟩ : Account).locked = true) :=
  ⟨by decide, rfl, rfl,
    fun s' h => c5_chargeback_finality.1 _ _ s' 1 _ (by decide) rfl rfl h⟩

/-- Claim C6: on an unlocked account, a Dispute whose tx id is absent from
the ledger or whose entry is already under dispute, and a Resolve or
Chargeback whose tx id is absent or whose entry is not under dispute, are
silent no-ops: the call returns the success value, the ledger is unchanged,
every other account is unchanged, and the event's own account is stored back
unchanged (src/transaction_processor.rs lines 84-120). -/
theorem c6_silent_noop (s : PState) (td : TransactionData)
    (hlock : (getClient s.accounts td.client_id).locked = false) :
    (s.transactions td.tx_id = none →
      processTransaction s (Transaction.Dispute td) =
        some (touch s td.client_id, Except.ok ()) ∧
      processTransaction s (Transaction.Resolve td) =
        some (touch s td.client_id, Except.ok ()) ∧
      processTransaction s (Transaction.Chargeback td) =
        some (touch s td.client_id, Except.ok ())) ∧
    (∀ t, s.transactions td.tx_id = some t →
      (t.under_dispute = true →
        processTransaction s (Transaction.Dispute td) =
          some (touch s td.client_id, Except.ok ())) ∧
      (t.under_dispute = false →
        processTransaction s (Transaction.Resolve td) =
          some (touch s td.client_id, Except.ok ()) ∧
        processTransaction s (Transaction.Chargeback td) =
          some (touch s td.client_id, Except.ok ()))) ∧
    (touch s td.client_id).transactions = s.transactions ∧
    (∀ c, c ≠ td.client_id →
      (touch s td.client_id).accounts c = s.accounts c) ∧
    (∀ a, s.accounts td.client_id = some a → a.client = td.client_id →
      (touch s td.client_id).accounts td.client_id = some a) := by
  refine ⟨?_, ?_, rfl, ?_, ?_⟩
  · intro hvac
    exact ⟨processTransaction_dispute_none s td hlock hvac,
      processTransaction_resolve_none s td hlock hvac,
      processTransaction_chargeback_none s td hlock hvac⟩
  · intro t ht
    exact ⟨fun hud => processTransaction_dispute_skip s td t hlock ht hud,
      fun hud => ⟨processTransaction_resolve_skip s td t hlock ht hud,
        processTransaction_chargeback_skip s td t hlock ht hud⟩⟩
  · intro c hc
    exact updateMap_apply_other _ _ _ _ hc
  · intro a hm hcl
    show updateMap s.accounts td.client_id
      (getClient s.accounts td.client_id) td.client_id = some a
    rw [updateMap_apply_same, getClient_of_mem _ _ _ hm hcl]

theorem c6_witness :
    (getClient initState.accounts 1).locked = false ∧
    processTransaction initState
        (Transaction.Dispute ⟨1, 999, none, false⟩) =
      some (touch initState 1, Except.ok ()) :=
  ⟨by decide, ((c6_silent_noop initState ⟨1, 999, none, false⟩
    (by decide)).1 rfl).1⟩

/-- Claim C4: the processor performs no check that a Dispute, Resolve or
Chargeback event's client id matches the `client_id` stored in the ledger
entry it references (src/transaction_processor.rs lines 84-120 never read
`t.client_id`): the entry's amount is applied to the account of the
*event's* client id, even when the two differ, and the entry's own client's
account is untouched. -/
theorem c4_no_client_id_check (s : PState) (td t : TransactionData)
    (amt : Amount)
    (ht : s.transactions td.tx_id = some t)
    (hne : t.client_id ≠ td.client_id)
    (hta : t.amount = some amt)
    (hlock : (getClient s.accounts td.client_id).locked = false) :
    (t.under_dispute = false →
      amt ≤ (getClient s.accounts td.client_id).available →
      ∀ p, processTransaction s (Transaction.Dispute td) = some p →
        p.1.accounts td.client_id =
          some { getClient s.accounts td.client_id with
                 held := (getClient s.accounts td.client_id).held + amt,
                 available :=
                   (getClient s.accounts td.client_id).available - amt } ∧
        p.1.accounts t.client_id = s.accounts t.client_id) ∧
    (t.under_dispute = true →
      ∀ p, processTransaction s (Transaction.Resolve td) = some p →
        p.1.accounts td.client_id =
          some { getClient s.accounts td.client_id with
                 held := (getClient s.accounts td.client_id).held - amt,
                 available :=
                   (getClient s.accounts td.client_id).available + amt } ∧
        p.1.accounts t.client_id = s.accounts t.client_id) ∧
    (t.under_dispute = true →
      ∀ p, processTransaction s (Transaction.Chargeback td) = some p →
        p.1.accounts td.client_id =
          some { getClient s.accounts td.client_id with
                 held := (getClient s.accounts td.client_id).held - amt,
                 total := (getClient s.accounts td.client_id).total - amt,
                 locked := true } ∧
        p.1.accounts t.client_id = s.accounts t.client_id) := by
  refine ⟨?_, ?_, ?_⟩
  · intro hud hav p hp
    have hd : (getClient s.accounts td.client_id).dispute amt =
        Except.ok { getClient s.accounts td.client_id with
                    held := (getClient s.accounts td.client_id).held + amt,
                    available :=
                      (getClient s.accounts td.client_id).available -
                        amt } := by
      unfold Account.dispute
      rw [if_pos hav]
    rw [processTransaction_dispute_ok s td t amt _ hlock ht hta hud hd]
      at hp
    rw [Option.some_inj] at hp
    subst hp
    dsimp only
    rw [updateMap_updateMap]
    exact ⟨updateMap_apply_same _ _ _,
      updateMap_apply_other _ _ _ _ hne⟩
  · intro hud p hp
    rw [processTransaction_resolve_ok s td t amt hlock ht hta hud] at hp
    rw [Option.some_inj] at hp
    subst hp
    dsimp only
    rw [updateMap_updateMap]
    exact ⟨updateMap_apply_same _ _ _,
      updateMap_apply_other _ _ _ _ hne⟩
  · intro hud p hp
    rw [processTransaction_chargeback_ok s td t amt hlock ht hta hud] at hp
    rw [Option.some_inj] at hp
    subst hp
    dsimp only
    rw [updateMap_updateMap]
    exact ⟨updateMap_apply_same _ _ _,
      updateMap_apply_other _ _ _ _ hne⟩

theorem c4_witness :
    ((⟨fun c => if c = 2 then some ⟨2, 50000, 0, 50000, false⟩ else none,
        fun i => if i = 7 then some ⟨1, 7, some 20000, false⟩ else none⟩ :
        PState).transactions 7 = some ⟨1, 7, some 20000, false⟩) ∧
    (⟨1, 7, some 20000, false⟩ : TransactionData).client_id ≠
      (⟨2, 7, none, false⟩ : TransactionData).client_id ∧
    (getClient
      (⟨fun c => if c = 2 then some ⟨2, 50000, 0, 50000, false⟩ else none,
        fun i => if i = 7 then some ⟨1, 7, some 20000, false⟩ else none⟩ :
        PState).accounts 2).locked = false ∧
    (∀ p, processTransaction
        (⟨fun c => if c = 2 then some ⟨2, 50000, 0, 50000, false⟩ else none,
          fun i => if i = 7 then some ⟨1, 7, some 20000, false⟩ else none⟩ :
          PState)
        (Transaction.Dispute ⟨2, 7, none, false⟩) = some p →
      p.1.accounts 2 = some (⟨2, 30000, 20000, 50000, false⟩ : Account) ∧
      p.1.accounts 1 =
        (⟨fun c => if c = 2 then some ⟨2, 50000, 0, 50000, false⟩ else none,
          fun i => if i = 7 then some ⟨1, 7, some 20000, false⟩ else none⟩ :
          PState).accounts 1) := by
  refine ⟨by decide, by decide, by decide, fun p hp => ?_⟩
  exact (c4_no_client_id_check _ ⟨2, 7, none, false⟩
    ⟨1, 7, some 20000, false⟩ 20000 (by decide) (by decide) rfl
    (by decide)).1 rfl (by decide) p hp


theorem resolve_dispute_inverse (a : Account) (amt : Amount) :
    Account.resolve
      { a with held := a.held + amt, available := a.available - amt } amt =
      a := by
  obtain ⟨c, av, hd, tt, l⟩ := a
  unfold Account.resolve
  show Account.mk c (av - amt + amt) (hd + amt - amt) tt l =
    Account.mk c av hd tt l
  rw [sub_add_cancel, add_sub_cancel_right]

/-- Claim C7: dispute/resolve round trip.  Starting from any state, a
successful Dispute on a ledger entry followed by a Resolve of the same
entry returns the event's account to its pre-dispute `available`/`held`
split (in fact to exactly the fetched pre-dispute account), with `total`
unchanged at the intermediate state as well; the ledger entry itself also
returns to its pre-dispute value. -/
theorem c7_dispute_resolve_round_trip (s : PState)
    (td t : TransactionData) (amt : Amount)
    (ht : s.transactions td.tx_id = some t)
    (hta : t.amount = some amt)
    (hud : t.under_dispute = false)
    (hlock : (getClient s.accounts td.client_id).locked = false)
    (hav : amt ≤ (getClient s.accounts td.client_id).available)
    (s1 : PState) (r1 : Except AccountingError Unit)
    (h1 : processTransaction s (Transaction.Dispute td) = some (s1, r1)) :
    r1 = Except.ok () ∧
    (∀ a1, s1.accounts td.client_id = some a1 →
      a1.total = (getClient s.accounts td.client_id).total) ∧
    (∀ s2 r2,
      processTransaction s1 (Transaction.Resolve td) = some (s2, r2) →
      r2 = Except.ok () ∧
      s2.accounts td.client_id =
        some (getClient s.accounts td.client_id) ∧
      s2.transactions td.tx_id = some t) := by
  have hd : (getClient s.accounts td.client_id).dispute amt =
      Except.ok { getClient s.accounts td.client_id with
                  held := (getClient s.accounts td.client_id).held + amt,
                  available :=
                    (getClient s.accounts td.client_id).available -
                      amt } := by
    unfold Account.dispute
    rw [if_pos hav]
  rw [processTransaction_dispute_ok s td t amt _ hlock ht hta hud hd,
    Option.some_inj, Prod.mk.injEq] at h1
  obtain ⟨hs1, hr1⟩ := h1
  subst hs1
  subst hr1
  refine ⟨rfl, ?_, ?_⟩
  · intro a1 ha1
    dsimp only at ha1
    rw [updateMap_updateMap, updateMap_apply_same, Option.some_inj] at ha1
    subst ha1
    rfl
  · intro s2 r2 h2
    have hm1 : (updateMap
        (updateMap s.accounts td.client_id
          (getClient s.accounts td.client_id)) td.client_id
        { getClient s.accounts td.client_id with
          held := (getClient s.accounts td.client_id).held + amt,
          available :=
            (getClient s.accounts td.client_id).available - amt })
        td.client_id =
        some { getClient s.accounts td.client_id with
               held := (getClient s.accounts td.client_id).held + amt,
               available :=
                 (getClient s.accounts td.client_id).available - amt } := by
      rw [updateMap_updateMap]
      exact updateMap_apply_same _ _ _
    have hcl1 : ({ getClient s.accounts td.client_id with
        held := (getClient s.accounts td.client_id).held + amt,
        available :=
          (getClient s.accounts td.client_id).available - amt } :
        Account).client = td.client_id :=
      getClient_client s.accounts td.client_id
    have hget1 := getClient_of_mem _ _ _ hm1 hcl1
    have hlock1 : (getClient (updateMap
        (updateMap s.accounts td.client_id
          (getClient s.accounts td.client_id)) td.client_id
        { getClient s.accounts td.client_id with
          held := (getClient s.accounts td.client_id).held + amt,
          available :=
            (getClient s.accounts td.client_id).available - amt })
        td.client_id).locked = false := by
      rw [hget1]
      exact hlock
    have ht1 : updateMap s.transactions td.tx_id
        { t with under_dispute := true } td.tx_id =
        some { t with under_dispute := true } :=
      updateMap_apply_same _ _ _
    have heq2 := processTransaction_resolve_ok
      ({ accounts := updateMap
           (updateMap s.accounts td.client_id
             (getClient s.accounts td.client_id)) td.client_id
           { getClient s.accounts td.client_id with
             held := (getClient s.accounts td.client_id).held + amt,
             available :=
               (getClient s.accounts td.client_id).available - amt },
         transactions := updateMap s.transactions td.tx_id
           { t with under_dispute := true } } : PState)
      td { t with under_dispute := true } amt hlock1 ht1 hta rfl
    rw [heq2, Option.some_inj, Prod.mk.injEq] at h2
    obtain ⟨hs2, hr2⟩ := h2
    subst hs2
    subst hr2
    refine ⟨rfl, ?_, ?_⟩
    · dsimp only
      rw [updateMap_updateMap, updateMap_apply_same, hget1,
        resolve_dispute_inverse]
    · dsimp only
      rw [updateMap_updateMap, updateMap_apply_same]
      obtain ⟨tc, ti, ta, tu⟩ := t
      simp only at hud
      rw [hud]

theorem c7_witness :
    ((⟨fun c => if c = 1 then some ⟨1, 45000, 0, 45000, false⟩ else none,
        fun i => if i = 2 then some ⟨1, 2, some 30000, false⟩ else none⟩ :
        PState).transactions 2 = some ⟨1, 2, some 30000, false⟩) ∧
    (⟨1, 2, some 30000, false⟩ : TransactionData).under_dispute = false ∧
    (getClient
      (⟨fun c => if c = 1 then some ⟨1, 45000, 0, 45000, false⟩ else none,
        fun i => if i = 2 then some ⟨1, 2, some 30000, false⟩ else none⟩ :
        PState).accounts 1).locked = false ∧
    (30000 : Amount) ≤ (getClient
      (⟨fun c => if c = 1 then some ⟨1, 45000, 0, 45000, false⟩ else none,
        fun i => if i = 2 then some ⟨1, 2, some 30000, false⟩ else none⟩ :
        PState).accounts 1).available ∧
    (∃ s1 r1,
      processTransaction
          (⟨fun c => if c = 1 then some ⟨1, 45000, 0, 45000, false⟩
              else none,
            fun i => if i = 2 then some ⟨1, 2, some 30000, false⟩
              else none⟩ : PState)
          (Transaction.Dispute ⟨1, 2, none, false⟩) = some (s1, r1) ∧
      r1 = Except.ok () ∧
      (∀ a1, s1.accounts 1 = some a1 → a1.total = (getClient
        (⟨fun c => if c = 1 then some ⟨1, 45000, 0, 45000, false⟩
            else none,
          fun i => if i = 2 then some ⟨1, 2, some 30000, false⟩
            else none⟩ : PState).accounts 1).total) ∧
      (∀ s2 r2,
        processTransaction s1 (Transaction.Resolve ⟨1, 2, none, false⟩) =
          some (s2, r2) →
        r2 = Except.ok () ∧
        s2.accounts 1 = some (getClient
          (⟨fun c => if c = 1 then some ⟨1, 45000, 0, 45000, false⟩
              else none,
            fun i => if i = 2 then some ⟨1, 2, some 30000, false⟩
              else none⟩ : PState).accounts 1) ∧
        s2.transactions 2 = some ⟨1, 2, some 30000, false⟩)) := by
  refine ⟨rfl, rfl, by decide, by decide, ⟨_, _, rfl, ?_⟩⟩
  exact c7_dispute_resolve_round_trip _ ⟨1, 2, none, false⟩
    ⟨1, 2, some 30000, false⟩ 30000 rfl rfl rfl (by decide) (by decide)
    _ _ rfl

/-- Claim C8: Dispute on an existing, not-yet-disputed ledger entry.  If the
event's account has at least the entry's amount available, the amount moves
from `available` to `held` (the `total` field of the resulting account is
untouched), and the entry's `under_dispute` flag is set; if available funds
are smaller than the amount, the event fails with the
insufficient-funds-for-dispute error (`AccountingError.Dispute` in
src/error.rs, message "Insufficient funds for dispute") and account and
ledger are left unchanged.  The last conjunct is the spec's concrete
scenario B (amounts scaled by `10 ^ 4`): Deposit(1,1,1.5); Deposit(1,2,3);
Dispute(1,2) yields account 1 = {available 1.5, held 3, total 4.5,
unlocked}. -/
theorem c8_dispute_transition (s : PState) (td t : TransactionData)
    (amt : Amount)
    (ht : s.transactions td.tx_id = some t)
    (hta : t.amount = some amt)
    (hud : t.under_dispute = false)
    (hlock : (getClient s.accounts td.client_id).locked = false) :
    (amt ≤ (getClient s.accounts td.client_id).available →
      ∀ p, processTransaction s (Transaction.Dispute td) = some p →
        p.2 = Except.ok () ∧
        p.1.accounts td.client_id =
          some { getClient s.accounts td.client_id with
                 held := (getClient s.accounts td.client_id).held + amt,
                 available :=
                   (getClient s.accounts td.client_id).available - amt } ∧
        p.1.transactions td.tx_id =
          some { t with under_dispute := true }) ∧
    ((getClient s.accounts td.client_id).available < amt →
      processTransaction s (Transaction.Dispute td) =
        some (touch s td.client_id,
              Except.error AccountingError.Dispute) ∧
      (touch s td.client_id).transactions = s.transactions ∧
      (∀ a, s.accounts td.client_id = some a → a.client = td.client_id →
        (touch s td.client_id).accounts td.client_id = some a)) ∧
    ((processList initState
        [Transaction.Deposit ⟨1, 1, some 15000, false⟩,
         Transaction.Deposit ⟨1, 2, some 30000, false⟩,
         Transaction.Dispute ⟨1, 2, none, false⟩]).bind
      (fun s0 => s0.accounts 1)) =
      some ⟨1, 15000, 30000, 45000, false⟩ := by
  refine ⟨?_, ?_, by decide⟩
  · intro hav p hp
    have hd : (getClient s.accounts td.client_id).dispute amt =
        Except.ok { getClient s.accounts td.client_id with
                    held := (getClient s.accounts td.client_id).held + amt,
                    available :=
                      (getClient s.accounts td.client_id).available -
                        amt } := by
      unfold Account.dispute
      rw [if_pos hav]
    rw [processTransaction_dispute_ok s td t amt _ hlock ht hta hud hd]
      at hp
    rw [Option.some_inj] at hp
    subst hp
    refine ⟨rfl, ?_, ?_⟩
    · dsimp only
      rw [updateMap_updateMap]
      exact updateMap_apply_same _ _ _
    · dsimp only
      exact updateMap_apply_same _ _ _
  · intro hlt
    have hd : (getClient s.accounts td.client_id).dispute amt =
        Except.error AccountingError.Dispute := by
      unfold Account.dispute
      rw [if_neg (not_le.mpr hlt)]
    refine ⟨processTransaction_dispute_err s td t amt _ hlock ht hta hud hd,
      rfl, ?_⟩
    intro a hm hcl
    show updateMap s.accounts td.client_id
      (getClient s.accounts td.client_id) td.client_id = some a
    rw [updateMap_apply_same, getClient_of_mem _ _ _ hm hcl]

theorem c8_witness :
    ((⟨fun c => if c = 1 then some ⟨1, 10000, 0, 10000, false⟩ else none,
        fun i => if i = 3 then some ⟨1, 3, some 40000, false⟩ else none⟩ :
        PState).transactions 3 = some ⟨1, 3, some 40000, false⟩) ∧
    (⟨1, 3, some 40000, false⟩ : TransactionData).under_dispute = false ∧
    (getClient
      (⟨fun c => if c = 1 then some ⟨1, 10000, 0, 10000, false⟩ else none,
        fun i => if i = 3 then some ⟨1, 3, some 40000, false⟩ else none⟩ :
        PState).accounts 1).available < (40000 : Amount) ∧
    processTransaction
        (⟨fun c => if c = 1 then some ⟨1, 10000, 0, 10000, false⟩
            else none,
          fun i => if i = 3 then some ⟨1, 3, some 40000, false⟩
            else none⟩ : PState)
        (Transaction.Dispute ⟨1, 3, none, false⟩) =
      some (touch
        (⟨fun c => if c = 1 then some ⟨1, 10000, 0, 10000, false⟩
            else none,
          fun i => if i = 3 then some ⟨1, 3, some 40000, false⟩
            else none⟩ : PState) 1,
        Except.error AccountingError.Dispute) := by
  refine ⟨rfl, rfl, by decide, ?_⟩
  exact ((c8_dispute_transition _ ⟨1, 3, none, false⟩
    ⟨1, 3, some 40000, false⟩ 40000 rfl rfl rfl (by decide)).2.1
    (by decide)).1

/-- Claim C9: Withdrawal semantics.  For a Withdrawal event with a positive
amount on an unlocked account: if `available - amount >= 0` the event's
account has both `available` and `total` decremented by the amount (this
holds whether or not the ledger insert afterwards succeeds); otherwise the
event fails with the insufficient-funds error (`AccountingError.Withdrawal`
in src/error.rs, message "Insufficient funds for withdrawal") and account
and ledger are unchanged.  The last two conjuncts are the spec's concrete
scenario D (amounts scaled by `10 ^ 4`): Deposit(2,1,3.3333);
Withdrawal(2,2,1) yields account 2 = {available 2.3333, held 0, total
2.3333}; a following Withdrawal(2,3,10) fails with balances unchanged. -/
theorem c9_withdrawal_transition (s : PState) (td : TransactionData)
    (amt : Amount)
    (hamt : td.amount = some amt) (hpos : 0 < amt)
    (hlock : (getClient s.accounts td.client_id).locked = false) :
    (0 ≤ (getClient s.accounts td.client_id).available - amt →
      ∀ p, processTransaction s (Transaction.Withdrawal td) = some p →
        p.1.accounts td.client_id =
          some { getClient s.accounts td.client_id with
                 available :=
                   (getClient s.accounts td.client_id).available - amt,
                 total :=
                   (getClient s.accounts td.client_id).total - amt }) ∧
    ((getClient s.accounts td.client_id).available - amt < 0 →
      processTransaction s (Transaction.Withdrawal td) =
        some (touch s td.client_id,
              Except.error AccountingError.Withdrawal) ∧
      (touch s td.client_id).transactions = s.transactions ∧
      (∀ a, s.accounts td.client_id = some a → a.client = td.client_id →
        (touch s td.client_id).accounts td.client_id = some a)) ∧
    ((processList initState
        [Transaction.Deposit ⟨2, 1, some 33333, false⟩,
         Transaction.Withdrawal ⟨2, 2, some 10000, false⟩]).bind
      (fun s0 => s0.accounts 2)) =
      some ⟨2, 23333, 0, 23333, false⟩ ∧
    ((processList initState
        [Transaction.Deposit ⟨2, 1, some 33333, false⟩,
         Transaction.Withdrawal ⟨2, 2, some 10000, false⟩]).bind
      (fun s0 => (processTransaction s0
          (Transaction.Withdrawal ⟨2, 3, some 100000, false⟩)).map
        (fun p => (p.1.accounts 2, p.2)))) =
      some (some ⟨2, 23333, 0, 23333, false⟩,
            Except.error AccountingError.Withdrawal) := by
  refine ⟨?_, ?_, by decide, rfl⟩
  · intro hge p hp
    have hw : (getClient s.accounts td.client_id).withdrawal amt =
        Except.ok { getClient s.accounts td.client_id with
                    available :=
                      (getClient s.accounts td.client_id).available - amt,
                    total :=
                      (getClient s.accounts td.client_id).total -
                        amt } := by
      unfold Account.withdrawal
      rw [if_pos hge]
    cases hvac : s.transactions td.tx_id with
    | none =>
      rw [processTransaction_withdrawal_ok_fresh s td amt _ hlock hamt hw
        hvac] at hp
      rw [Option.some_inj] at hp
      subst hp
      dsimp only
      rw [updateMap_updateMap]
      exact updateMap_apply_same _ _ _
    | some t =>
      rw [processTransaction_withdrawal_ok_dup s td amt _ t hlock hamt hw
        hvac] at hp
      rw [Option.some_inj] at hp
      subst hp
      dsimp only
      rw [updateMap_updateMap]
      exact updateMap_apply_same _ _ _
  · intro hlt
    have hw : (getClient s.accounts td.client_id).withdrawal amt =
        Except.error AccountingError.Withdrawal := by
      unfold Account.withdrawal
      rw [if_neg (not_le.mpr hlt)]
    refine ⟨processTransaction_withdrawal_err s td amt _ hlock hamt hw,
      rfl, ?_⟩
    intro a hm hcl
    show updateMap s.accounts td.client_id
      (getClient s.accounts td.client_id) td.client_id = some a
    rw [updateMap_apply_same, getClient_of_mem _ _ _ hm hcl]

theorem c9_witness :
    ((⟨2, 5, some 10000, false⟩ : TransactionData).amount =
      some (10000 : Amount)) ∧
    (0 : Amount) < 10000 ∧
    (getClient initState.accounts 2).locked = false ∧
    ((getClient initState.accounts 2).available - 10000 < 0 →
      processTransaction initState
          (Transaction.Withdrawal ⟨2, 5, some 10000, false⟩) =
        some (touch initState 2,
              Except.error AccountingError.Withdrawal) ∧
      (touch initState 2).transactions = initState.transactions ∧
      (∀ a, initState.accounts 2 = some a → a.client = 2 →
        (touch initState 2).accounts 2 = some a)) :=
  ⟨rfl, by decide, by decide,
    (c9_withdrawal_transition initState ⟨2, 5, some 10000, false⟩ 10000
      rfl (by decide) (by decide)).2.1⟩

/-- Claim C1 (code-bug evidence): a Deposit whose tx id already exists in
the ledger is *not* atomic.  The code (src/transaction_processor.rs lines
64-73) calls `client.deposit` *before* the ledger-absence check and never
rolls it back, so a duplicate Deposit of 5.0 (= 50000 units) leaves the
account at available = total = 10.0 while returning the duplicate failure:
first conjunct, the two-event run doubles the balance; second conjunct, the
duplicate event itself both mutates the account and returns
`TransactionAlreadyExists`; third conjunct, the same for a duplicate
Withdrawal.  The spec instead mandates validating ledger absence before
touching the account. -/
theorem c1_duplicate_deposit_not_atomic :
    ((processList initState
        [Transaction.Deposit ⟨1, 1, some 50000, false⟩,
         Transaction.Deposit ⟨1, 1, some 50000, false⟩]).bind
      (fun s0 => s0.accounts 1)) =
      some ⟨1, 100000, 0, 100000, false⟩ ∧
    ((processTransaction
        (⟨fun c => if c = 1 then some ⟨1, 50000, 0, 50000, false⟩
            else none,
          fun i => if i = 1 then some ⟨1, 1, some 50000, false⟩
            else none⟩ : PState)
        (Transaction.Deposit ⟨1, 1, some 50000, false⟩)).map
      (fun p => (p.1.accounts 1, p.2))) =
      some (some ⟨1, 100000, 0, 100000, false⟩,
            Except.error AccountingError.TransactionAlreadyExists) ∧
    ((processTransaction
        (⟨fun c => if c = 1 then some ⟨1, 50000, 0, 50000, false⟩
            else none,
          fun i => if i = 1 then some ⟨1, 1, some 50000, false⟩
            else none⟩ : PState)
        (Transaction.Withdrawal ⟨1, 1, some 20000, false⟩)).map
      (fun p => (p.1.accounts 1, p.2))) =
      some (some ⟨1, 30000, 0, 30000, false⟩,
            Except.error AccountingError.TransactionAlreadyExists) :=
  ⟨by decide, rfl, rfl⟩

/-- Claim C2 (amended): after every processed prefix of a stream of
well-formed events (Deposit/Withdrawal amounts present and positive, as the
CSV reader guarantees), every account satisfies `available >= 0` and
`total = available + held`.  The spec's further conjunct `held >= 0` is NOT
an invariant of the code: see the counterexample theorem. -/
theorem c2_account_invariant (txs : List Transaction)
    (hwf : ∀ tx ∈ txs, wfTx tx = true) :
    ∀ s', processList initState txs = some s' →
      ∀ c a, s'.accounts c = some a →
        0 ≤ a.available ∧ a.total = a.available + a.held :=
  fun s' h c a hca =>
    (stateInv_processList txs initState s' stateInv_initState hwf h).1
      c a hca

theorem c2_witness :
    (∀ tx ∈ [Transaction.Deposit ⟨1, 1, some 50000, false⟩,
             Transaction.Withdrawal ⟨1, 2, some 20000, false⟩],
      wfTx tx = true) ∧
    (∀ s', processList initState
        [Transaction.Deposit ⟨1, 1, some 50000, false⟩,
         Transaction.Withdrawal ⟨1, 2, some 20000, false⟩] = some s' →
      ∀ c a, s'.accounts c = some a →
        0 ≤ a.available ∧ a.total = a.available + a.held) :=
  ⟨by decide, c2_account_invariant _ (by decide)⟩

/-- Claim C2 counterexample: a run of four well-formed events drives an
account's `held` strictly negative, refuting `held >= 0`.  Client 2
disputes client 1's deposit (tx 1) — the processor never compares the
event's client id with the entry's (see C4) — and client 1 then resolves
it: client 1 ends at {available 10.0, held -5.0, total 5.0}. -/
theorem c2_counterexample :
    (∀ tx ∈ [Transaction.Deposit ⟨1, 1, some 50000, false⟩,
             Transaction.Deposit ⟨2, 2, some 50000, false⟩,
             Transaction.Dispute ⟨2, 1, none, false⟩,
             Transaction.Resolve ⟨1, 1, none, false⟩],
      wfTx tx = true) ∧
    ((processList initState
        [Transaction.Deposit ⟨1, 1, some 50000, false⟩,
         Transaction.Deposit ⟨2, 2, some 50000, false⟩,
         Transaction.Dispute ⟨2, 1, none, false⟩,
         Transaction.Resolve ⟨1, 1, none, false⟩]).bind
      (fun s0 => s0.accounts 1)) =
      some ⟨1, 100000, -50000, 50000, false⟩ ∧
    ¬ (0 : Amount) ≤ -50000 :=
  ⟨by decide, by decide, by decide⟩

/-- Claim C3 counterexample: the processor itself performs no amount check.
A Deposit event carrying amount -5.0 (= -50000 units) that reaches
`process_transaction` is *not* rejected: it succeeds and drives the account
negative.  (No `InvalidAmount` error exists in src/error.rs.) -/
theorem c3_counterexample :
    ((processTransaction initState
        (Transaction.Deposit ⟨1, 1, some (-50000), false⟩)).map
      (fun p => (p.1.accounts 1, p.2))) =
      some (some ⟨1, -50000, 0, -50000, false⟩, Except.ok ()) ∧
    ((-50000 : Amount) ≤ 0) :=
  ⟨rfl, by decide⟩

/-- Claim C3 (amended): a Deposit/Withdrawal record with amount <= 0 is
rejected upstream, by the CSV reader: `record_to_transaction`
(src/csv_utils.rs lines 49-79) yields no transaction for it (the caller
`get_next_record` surfaces this as `MalformedTransaction`), so the event
never reaches the processor and no account or ledger mutation takes place.
The processor itself performs no amount check and there is no
`InvalidAmount` error. -/
theorem c3_reader_filters_nonpositive (rec : Record) (amt : Amount)
    (hty : rec.transaction_type = some "deposit" ∨
      rec.transaction_type = some "withdrawal")
    (hamt : rec.amount = some amt) (hle : amt ≤ 0) :
    recordToTransaction rec = none := by
  cases hty with
  | inl h =>
    cases hc : rec.client <;> cases htx : rec.tx <;>
      simp [recordToTransaction, h, hamt, hc, htx, hle]
  | inr h =>
    cases hc : rec.client <;> cases htx : rec.tx <;>
      simp [recordToTransaction, h, hamt, hc, htx, hle]

theorem c3_witness :
    ((⟨some "deposit", some 1, some 1, some (-10000)⟩ : Record).amount =
      some (-10000 : Amount)) ∧
    ((-10000 : Amount) ≤ 0) ∧
    recordToTransaction ⟨some "deposit", some 1, some 1, some (-10000)⟩ =
      none :=
  ⟨rfl, by decide,
    c3_reader_filters_nonpositive _ _ (Or.inl rfl) rfl (by decide)⟩
